import Mathlib

/-!
Verification of the peer_checker probe engine (peer_checker.py).

The Python source is embedded shallowly:

* `resolve(name)` — bracketed hosts are sliced `name[1:-1]` (drop the first
  and the last character); otherwise `getaddrinfo` is consulted, any
  exception yielding `None`.  The lookup service is modelled as an oracle
  `lookup : String → Option String` giving the first resolved address
  (`info[0][4][0]`), or `none` when the lookup raises.
* `isup(peer)` — sets `up = False`, `latency = None`, resolves, and if the
  address is truthy (non-`None` and non-empty) attempts
  `asyncio.wait_for(asyncio.open_connection(addr, port), 5)`.  The timed
  scope covers only `open_connection`; the resolve step has already been
  awaited before and outside it.  On establishment the code sets
  `latency = datetime.now() - start_time` (the difference of two wall-clock
  readings), then closes the writer and awaits `wait_closed`, and only
  after that sets `up = True`; every exception inside the `try` is caught.
  All times are modelled as integer microseconds, the resolution of
  Python's `timedelta`; the 5 second bound is 5000000 microseconds.
  The outside world of one probe is a `ProbeEnv`: the lookup oracle, the
  durations of the lookup and of the connection attempt, the connection
  outcome, whether closing raises, the two wall-clock readings the code
  takes, and the readings a monotonic clock would have shown at the same
  two instants (the code never reads those; they exist only so that claims
  about monotonic clocks can be stated against the code's behaviour).
* `main(peers)` — `asyncio.gather` over `[isup(p) for p in peers]`,
  returning the results in the order of the coroutines it was given.
* `print_results(results)` — `prepare_table` builds rows
  `(addr, latency, place)` with `addr = "scheme://host:port"`,
  `latency = round(td.total_seconds() * 1000, 3)` when present, and
  `place = "region/country"`, in encounter order; the alive rows are
  printed sorted with Python's stable `sorted` keyed on that rounded
  latency, the dead rows in encounter order.  Python's `round(x, n)`
  rounds half to even.

Probe traces (`Event`) record which lookup calls and connection attempts a
probe performs, so that claims like "no name-resolution call happens" are
statable.
-/

namespace PeerChecker

/-- The three captured groups of PEER_REGEX: scheme, host, port (as text). -/
structure Uri where
  scheme : String
  host : String
  port : String
deriving DecidableEq

/-- An input peer dict: {"uri": p, "region": region, "country": country}. -/
structure PeerIn where
  uri : Uri
  region : String
  country : String
deriving DecidableEq

/-- A peer dict after isup added the "up" and "latency" keys.
Latency is a timedelta, modelled as integer microseconds. -/
structure PeerResult where
  uri : Uri
  region : String
  country : String
  up : Bool
  latency : Option ℤ
deriving DecidableEq

/-- Outcome of asyncio.open_connection, apart from its duration:
it yields a connection or raises (refused, unreachable, reset, ...). -/
inductive ConnOutcome where
  | success
  | failure
deriving DecidableEq

/-- The observable side effects of one probe. -/
inductive Event where
  | lookupCall (name : String)
  | connectAttempt (addr : String) (port : String)
deriving DecidableEq

/-- The world one probe runs in (see the module docstring).
All times are integer microseconds. -/
structure ProbeEnv where
  lookup : String → Option String
  resolveDuration : ℤ
  connectDuration : ℤ
  connOutcome : ConnOutcome
  closeFails : Bool
  wall0 : ℤ
  wall1 : ℤ
  mono0 : ℤ
  mono1 : ℤ

/-- Python truthiness of the resolved address: `if addr:` is false for
None and for the empty string. -/
def pyTruthy : Option String → Bool
  | none => false
  | some s => !s.data.isEmpty

/-- `resolve(name)`, with the trace of lookup calls it makes.
`name.startswith("[")` is the test on the first character, and
`name[1:-1]` drops the first and the last character of the string. -/
def resolveT (lookup : String → Option String) (name : String) :
    Option String × List Event :=
  if name.data.head? = some '[' then
    (some (String.mk name.data.tail.dropLast), [])
  else
    (lookup name, [Event.lookupCall name])

/-- `isup(peer)`, with the trace of its lookup calls and connection
attempts.  `wait_for(open_connection(addr, port), 5)` succeeds exactly
when the connection outcome is success and the attempt takes at most the
5 second bound (5000000 microseconds); any exception inside the `try`
block (timeout, connection error, or a failure while closing) is caught.
`latency` is assigned right after establishment, before the close;
`up = True` only after `wait_closed` returns. -/
def isupT (env : ProbeEnv) (p : PeerIn) : PeerResult × List Event :=
  if pyTruthy (resolveT env.lookup p.uri.host).1 then
    if env.connOutcome = ConnOutcome.success ∧ env.connectDuration ≤ 5000000 then
      if env.closeFails then
        (⟨p.uri, p.region, p.country, false, some (env.wall1 - env.wall0)⟩,
         (resolveT env.lookup p.uri.host).2
           ++ [Event.connectAttempt ((resolveT env.lookup p.uri.host).1.getD "") p.uri.port])
      else
        (⟨p.uri, p.region, p.country, true, some (env.wall1 - env.wall0)⟩,
         (resolveT env.lookup p.uri.host).2
           ++ [Event.connectAttempt ((resolveT env.lookup p.uri.host).1.getD "") p.uri.port])
    else
      (⟨p.uri, p.region, p.country, false, none⟩,
       (resolveT env.lookup p.uri.host).2
         ++ [Event.connectAttempt ((resolveT env.lookup p.uri.host).1.getD "") p.uri.port])
  else
    (⟨p.uri, p.region, p.country, false, none⟩,
     (resolveT env.lookup p.uri.host).2)

/-- `main(peers)`: asyncio.gather over `[isup(p) for p in peers]` returns
the results in the order of the coroutines it was given. -/
def mainGather (envOf : PeerIn → ProbeEnv) (peers : List PeerIn) :
    List PeerResult :=
  peers.map (fun p => (isupT (envOf p) p).1)

/-! ### print_results -/

/-- A row of prepare_table: (addr, latency in rounded milliseconds, place). -/
abbrev Row := String × Option ℚ × String

/-- Python's round-half-to-even of a rational to an integer. -/
def roundHalfEven (q : ℚ) : ℤ :=
  if q - Rat.floor q < 1/2 then Rat.floor q
  else if 1/2 < q - Rat.floor q then Rat.floor q + 1
  else if Rat.floor q % 2 = 0 then Rat.floor q else Rat.floor q + 1

/-- Python's `round(x, 3)`. -/
def pyRound3 (x : ℚ) : ℚ := (roundHalfEven (x * 1000) : ℚ) / 1000

/-- `timedelta.total_seconds()` for a timedelta of `us` microseconds. -/
def total_seconds (us : ℤ) : ℚ := (us : ℚ) / 1000000

/-- One iteration of the prepare_table loop:
addr, `round(p["latency"].total_seconds() * 1000, 3)` when latency is not
None, and place. -/
def mkRow (p : PeerResult) : Row :=
  (p.uri.scheme ++ "://" ++ p.uri.host ++ ":" ++ p.uri.port,
   p.latency.map (fun us => pyRound3 (total_seconds us * 1000)),
   p.region ++ "/" ++ p.country)

/-- `prepare_table(peer_list_iter)`: the rows in iteration order, and the
maximal addr width (initialised 0). -/
def prepare_table (l : List PeerResult) : List Row × Nat :=
  (l.map mkRow, l.foldl (fun w p => max w (mkRow p).1.length) 0)

/-- The sort key of an alive row: its rounded latency.  In the alive table
the latency of every row is present (isup sets latency whenever it sets
up), so the default never shows in the printed output. -/
def rowKey (r : Row) : ℚ := r.2.1.getD 0

/-- The comparison `sorted(p_table, key=lambda x: x[1])` sorts by. -/
def rowLe (a b : Row) : Bool := decide (rowKey a ≤ rowKey b)

/-- The alive rows in print order:
`sorted(prepare_table(filter(lambda p: p["up"], results))[0], key=...)`,
where Python's sorted is a stable ascending sort. -/
def alive_rows (results : List PeerResult) : List Row :=
  ((prepare_table (results.filter (fun p => p.up))).1).mergeSort rowLe

/-- The dead rows in print order:
`prepare_table(filter(lambda p: not p["up"], results))[0]`, printed in
iteration order. -/
def dead_rows (results : List PeerResult) : List Row :=
  (prepare_table (results.filter (fun p => !p.up))).1

/-! ### Helper lemmas -/

/-- isup mutates only the "up" and "latency" keys: the descriptor fields of
the returned dict are those of the input dict. -/
theorem isupT_descriptor (env : ProbeEnv) (p : PeerIn) :
    (isupT env p).1.uri = p.uri ∧ (isupT env p).1.region = p.region ∧
      (isupT env p).1.country = p.country := by
  unfold isupT
  split_ifs
  all_goals exact ⟨rfl, rfl, rfl⟩

/-- Whenever isup reports a peer up, it has recorded a latency. -/
theorem isupT_up_latency (env : ProbeEnv) (p : PeerIn)
    (h : (isupT env p).1.up = true) : (isupT env p).1.latency.isSome := by
  unfold isupT at h ⊢
  split_ifs at h ⊢
  all_goals simp_all

end PeerChecker

open PeerChecker

/-- C1: for every input list of N endpoint descriptors, probe_all (main,
via asyncio.gather over isup) returns exactly N probe results, one per
input descriptor in order, regardless of how failures are distributed;
no descriptor is dropped. -/
theorem probe_all_one_result_per_descriptor (envOf : PeerIn → ProbeEnv)
    (peers : List PeerIn) :
    (mainGather envOf peers).length = peers.length ∧
      (mainGather envOf peers).map (fun r => (r.uri, r.region, r.country))
        = peers.map (fun p => (p.uri, p.region, p.country)) := by
  refine ⟨by simp [mainGather], ?_⟩
  simp only [mainGather, List.map_map]
  refine List.map_congr_left (fun p _ => ?_)
  obtain ⟨h1, h2, h3⟩ := isupT_descriptor (envOf p) p
  simp [Function.comp, h1, h2, h3]

/-- C9: probe_all returns its results in exactly the input order: for
every index i, the i-th element of the sequence returned by main is the
result of isup on the i-th input descriptor, and it carries that
descriptor. -/
theorem probe_all_input_order (envOf : PeerIn → ProbeEnv)
    (peers : List PeerIn) (i : ℕ) :
    (mainGather envOf peers)[i]?
        = (peers[i]?).map (fun p => (isupT (envOf p) p).1) ∧
      ((mainGather envOf peers)[i]?).map (fun r => r.uri)
        = (peers[i]?).map (fun p => p.uri) := by
  refine ⟨by simp [mainGather], ?_⟩
  simp only [mainGather, List.getElem?_map, Option.map_map]
  refine congrFun (congrArg Option.map (funext fun p => ?_)) _
  exact (isupT_descriptor (envOf p) p).1

/-- resolve on a well-formed bracketed host returns the interior. -/
theorem resolveT_bracket (lookup : String → Option String) (s : String) :
    resolveT lookup ("[" ++ s ++ "]") = (some s, []) := by
  unfold resolveT
  have hd : ("[" ++ s ++ "]").data = '[' :: (s.data ++ [']']) := by
    simp [String.data_append]
  rw [if_pos (by rw [hd]; rfl)]
  rw [hd]
  simp

/-- C8: for every non-bracketed host whose lookup fails, resolve returns
None rather than raising, and the probe finalizes the result as
unreachable, latency absent, with no connection attempt made: the trace
holds exactly the one lookup call. -/
theorem lookup_failure_skips_probe (env : ProbeEnv) (p : PeerIn)
    (hb : p.uri.host.data.head? ≠ some '[')
    (hl : env.lookup p.uri.host = none) :
    (resolveT env.lookup p.uri.host).1 = none ∧
      (isupT env p).1.up = false ∧ (isupT env p).1.latency = none ∧
      (isupT env p).2 = [Event.lookupCall p.uri.host] := by
  have hr : resolveT env.lookup p.uri.host
      = (none, [Event.lookupCall p.uri.host]) := by
    unfold resolveT
    rw [if_neg hb, hl]
  refine ⟨by rw [hr], ?_⟩
  unfold isupT
  rw [hr]
  simp [pyTruthy]

def w8Env : ProbeEnv :=
  ⟨fun _ => none, 0, 0, ConnOutcome.success, false, 0, 0, 0, 0⟩

def w8Peer : PeerIn :=
  ⟨⟨"tcp", "unresolvable.invalid.test", "80"⟩, "europe", "germany.md"⟩

/-- C8 witness: a concrete host whose lookup fails is skipped. -/
theorem lookup_failure_skips_probe_witness :
    (resolveT w8Env.lookup w8Peer.uri.host).1 = none ∧
      (isupT w8Env w8Peer).1.up = false ∧
      (isupT w8Env w8Peer).1.latency = none ∧
      (isupT w8Env w8Peer).2 = [Event.lookupCall w8Peer.uri.host] :=
  lookup_failure_skips_probe w8Env w8Peer (by decide) rfl

/-- C6: for every host that is a bracketed literal, resolve performs no
name-resolution call and returns the interior of the brackets verbatim,
and that interior is the address the connection attempt then uses. -/
theorem bracket_literal_bypasses_lookup (lookup : String → Option String)
    (env : ProbeEnv) (p : PeerIn) (s : String)
    (hp : p.uri.host = "[" ++ s ++ "]") (hs : s ≠ "") :
    (resolveT lookup ("[" ++ s ++ "]")).1 = some s ∧
      (resolveT lookup ("[" ++ s ++ "]")).2 = [] ∧
      (isupT env p).2 = [Event.connectAttempt s p.uri.port] := by
  refine ⟨by rw [resolveT_bracket], by rw [resolveT_bracket], ?_⟩
  have hdata : s.data ≠ [] := fun h => hs (by
    have hmk : s = String.mk s.data := rfl
    rw [hmk, h])
  have ht : pyTruthy (resolveT env.lookup p.uri.host).1 = true := by
    rw [hp, resolveT_bracket]
    simp [pyTruthy, hdata]
  unfold isupT
  rw [ht]
  simp only [if_true]
  split_ifs <;> simp [hp, resolveT_bracket]

def w6Env : ProbeEnv :=
  ⟨fun _ => none, 0, 100, ConnOutcome.success, false, 0, 900, 0, 900⟩

def w6Peer : PeerIn :=
  ⟨⟨"tls", "[200:1111:2222:3333:4444:5555:6666:7777]", "443"⟩, "other", "v6.md"⟩

/-- C6 witness: a concrete bracketed IPv6 host bypasses the lookup and its
interior is the connection address. -/
theorem bracket_literal_bypasses_lookup_witness :
    (resolveT w6Env.lookup
        ("[" ++ "200:1111:2222:3333:4444:5555:6666:7777" ++ "]")).1
      = some "200:1111:2222:3333:4444:5555:6666:7777" ∧
      (resolveT w6Env.lookup
        ("[" ++ "200:1111:2222:3333:4444:5555:6666:7777" ++ "]")).2 = [] ∧
      (isupT w6Env w6Peer).2
        = [Event.connectAttempt "200:1111:2222:3333:4444:5555:6666:7777"
            w6Peer.uri.port] :=
  bracket_literal_bypasses_lookup w6Env.lookup w6Env w6Peer
    "200:1111:2222:3333:4444:5555:6666:7777" (by decide) (by decide)

/-- C10: resolve removes the first and the last character of every host
beginning with a bracket, whether or not it ends with one, and when the
remaining interior is empty the probe behaves as for an unresolvable
host: no lookup, no connection attempt, unreachable, latency absent. -/
theorem bracket_strip_empty_interior :
    (∀ (lookup : String → Option String) (name : String),
        name.data.head? = some '[' →
        resolveT lookup name = (some (String.mk name.data.tail.dropLast), [])) ∧
      (∀ (env : ProbeEnv) (p : PeerIn), p.uri.host.data.head? = some '[' →
        p.uri.host.data.tail.dropLast = [] →
        (isupT env p).1.up = false ∧ (isupT env p).1.latency = none ∧
          (isupT env p).2 = []) := by
  have hres : ∀ (lookup : String → Option String) (name : String),
      name.data.head? = some '[' →
      resolveT lookup name = (some (String.mk name.data.tail.dropLast), []) := by
    intro lookup name h
    unfold resolveT
    rw [if_pos h]
  refine ⟨hres, fun env p h1 h2 => ?_⟩
  have hr := hres env.lookup p.uri.host h1
  rw [h2] at hr
  unfold isupT
  rw [hr]
  simp [pyTruthy]

def w10Env : ProbeEnv :=
  ⟨fun _ => some "203.0.113.77", 0, 100, ConnOutcome.success, false, 0, 900, 0, 900⟩

def w10Peer : PeerIn :=
  ⟨⟨"tcp", "[]", "80"⟩, "europe", "france.md"⟩

/-- C10 witness: the host "[abc" (no closing bracket) loses its first and
last characters, and the host "[]" yields an empty interior, so its probe
makes no connection attempt and stays unreachable. -/
theorem bracket_strip_empty_interior_witness :
    (resolveT (fun _ => none) "[abc").1 = some "ab" ∧
      (isupT w10Env w10Peer).1.up = false ∧
      (isupT w10Env w10Peer).1.latency = none ∧
      (isupT w10Env w10Peer).2 = [] :=
  ⟨by
    rw [bracket_strip_empty_interior.1 (fun _ => none) "[abc" (by decide)]
    decide,
    bracket_strip_empty_interior.2 w10Env w10Peer (by decide) (by decide)⟩

def cex2Env : ProbeEnv :=
  ⟨fun _ => some "203.0.113.7", 1000, 400, ConnOutcome.success, true,
    1000000, 1003000, 0, 3000⟩

def cex2Peer : PeerIn :=
  ⟨⟨"tcp", "alpha.example.org", "80"⟩, "europe", "france.md"⟩

/-- C2 counterexample: when the connection opens and the close then
fails, the probe returns up=false with a latency recorded, so an
unreachable result carries a latency, contradicting the claimed field
consistency. -/
theorem result_fields_cex :
    cex2Env.connOutcome = ConnOutcome.success ∧ cex2Env.closeFails = true ∧
      (isupT cex2Env cex2Peer).1.up = false ∧
      (isupT cex2Env cex2Peer).1.latency = some 3000 := by decide

/-- C2 amended: a reachable result always carries a non-negative latency
provided the wall clock did not step backwards during the probe, and an
absent latency always means unreachable; but an unreachable result may
still carry a latency, namely on the path where the connection opens and
the close fails.  Latency is recorded exactly when the connection is
established within the timeout. -/
theorem result_fields_amended (env : ProbeEnv) (p : PeerIn)
    (hclk : env.wall0 ≤ env.wall1) :
    ((isupT env p).1.up = true →
        ∃ d, (isupT env p).1.latency = some d ∧ 0 ≤ d) ∧
      ((isupT env p).1.latency = none → (isupT env p).1.up = false) ∧
      ((isupT env p).1.latency.isSome = true ↔
        (pyTruthy (resolveT env.lookup p.uri.host).1 = true ∧
          env.connOutcome = ConnOutcome.success ∧
          env.connectDuration ≤ 5000000)) := by
  unfold isupT
  split_ifs with h1 h2 h3
  all_goals simp_all

def w2Env : ProbeEnv :=
  ⟨fun _ => some "203.0.113.8", 0, 400, ConnOutcome.success, false,
    0, 2500, 0, 2500⟩

def w2Peer : PeerIn :=
  ⟨⟨"tls", "beta.example.org", "443"⟩, "europe", "spain.md"⟩

/-- C2 witness: the amended field consistency at a concrete successful
probe. -/
theorem result_fields_amended_witness :
    w2Env.wall0 ≤ w2Env.wall1 ∧
      (((isupT w2Env w2Peer).1.up = true →
        ∃ d, (isupT w2Env w2Peer).1.latency = some d ∧ 0 ≤ d) ∧
      ((isupT w2Env w2Peer).1.latency = none →
        (isupT w2Env w2Peer).1.up = false) ∧
      ((isupT w2Env w2Peer).1.latency.isSome = true ↔
        (pyTruthy (resolveT w2Env.lookup w2Peer.uri.host).1 = true ∧
          w2Env.connOutcome = ConnOutcome.success ∧
          w2Env.connectDuration ≤ 5000000))) :=
  ⟨by decide, result_fields_amended w2Env w2Peer (by decide)⟩

def cex3Env : ProbeEnv :=
  ⟨fun _ => some "198.51.100.2", 0, 100, ConnOutcome.success, true,
    0, 700, 0, 700⟩

def cex3Peer : PeerIn :=
  ⟨⟨"tcp", "gamma.example.org", "80"⟩, "asia", "japan.md"⟩

/-- C3 counterexample: the connection opens within the bound and the
close then fails; the probe returns reachable=false, not reachable=true
as claimed. -/
theorem close_failure_cex :
    cex3Env.connOutcome = ConnOutcome.success ∧
      cex3Env.connectDuration ≤ 5000000 ∧ cex3Env.closeFails = true ∧
      (isupT cex3Env cex3Peer).1.up = false := by decide

/-- C3 amended: a failure while closing the connection is caught, not
raised out of the probe, but since up is assigned only after wait_closed
returns, the result is reachable=false; the latency measured at
establishment stays recorded. -/
theorem close_failure_amended (env : ProbeEnv) (p : PeerIn)
    (ht : pyTruthy (resolveT env.lookup p.uri.host).1 = true)
    (hc : env.connOutcome = ConnOutcome.success)
    (hd : env.connectDuration ≤ 5000000)
    (hf : env.closeFails = true) :
    (isupT env p).1.up = false ∧
      (isupT env p).1.latency = some (env.wall1 - env.wall0) := by
  unfold isupT
  split_ifs
  all_goals simp_all

/-- C3 witness: the amended close-failure behaviour at a concrete probe. -/
theorem close_failure_amended_witness :
    (isupT cex3Env cex3Peer).1.up = false ∧
      (isupT cex3Env cex3Peer).1.latency
        = some (cex3Env.wall1 - cex3Env.wall0) :=
  close_failure_amended cex3Env cex3Peer (by decide) (by decide)
    (by decide) (by decide)

def cex4Env : ProbeEnv :=
  ⟨fun _ => some "192.0.2.10", 100000000, 1000000, ConnOutcome.success,
    false, 0, 1000000, 0, 1000000⟩

def cex4Peer : PeerIn :=
  ⟨⟨"tcp", "delta.example.org", "80"⟩, "asia", "china.md"⟩

/-- C4 counterexample: the name lookup takes 100 seconds and the
connection 1 second; resolution plus connection far exceed the 5 second
bound, yet the probe succeeds, so the timeout does not bound resolution
and connection combined. -/
theorem timeout_scope_cex :
    cex4Env.resolveDuration + cex4Env.connectDuration > 5000000 ∧
      (isupT cex4Env cex4Peer).1.up = true := by decide

/-- C4 amended: the 5 second timeout bounds only the connection attempt:
the probe result and trace are entirely independent of the duration of
the resolve step, which runs before and outside the timed scope, and
(once an address was obtained) the connection is established iff it
succeeds within 5 seconds. -/
theorem timeout_bounds_connection_only (env : ProbeEnv) (p : PeerIn)
    (d : ℤ) (ht : pyTruthy (resolveT env.lookup p.uri.host).1 = true) :
    isupT { env with resolveDuration := d } p = isupT env p ∧
      ((isupT env p).1.latency.isSome = true ↔
        (env.connOutcome = ConnOutcome.success ∧
          env.connectDuration ≤ 5000000)) := by
  refine ⟨rfl, ?_⟩
  unfold isupT
  split_ifs <;> simp_all

/-- C4 witness: the amended timeout scope at a concrete probe whose
lookup is slow. -/
theorem timeout_bounds_connection_only_witness :
    isupT { cex4Env with resolveDuration := 42 } cex4Peer
        = isupT cex4Env cex4Peer ∧
      ((isupT cex4Env cex4Peer).1.latency.isSome = true ↔
        (cex4Env.connOutcome = ConnOutcome.success ∧
          cex4Env.connectDuration ≤ 5000000)) :=
  timeout_bounds_connection_only cex4Env cex4Peer 42 (by decide)

def cex5Env : ProbeEnv :=
  ⟨fun _ => some "192.0.2.20", 0, 1000000, ConnOutcome.success, false,
    5000000, 4000000, 100, 900100⟩

def cex5Peer : PeerIn :=
  ⟨⟨"tcp", "epsilon.example.org", "80"⟩, "north-america", "mexico.md"⟩

/-- C5 counterexample: during a successful probe the wall clock is
adjusted backwards by one second; the recorded latency is the negative
wall-clock difference, not the difference of the monotonic readings
taken at the same two instants (which is non-negative, as every
difference of in-order monotonic readings is). -/
theorem latency_monotonic_cex :
    (isupT cex5Env cex5Peer).1.up = true ∧
      (isupT cex5Env cex5Peer).1.latency = some (-1000000) ∧
      cex5Env.mono0 ≤ cex5Env.mono1 ∧
      (isupT cex5Env cex5Peer).1.latency
        ≠ some (cex5Env.mono1 - cex5Env.mono0) := by decide

/-- C5 amended: for every successful probe the recorded latency is the
difference of the two datetime.now() wall-clock readings taken before
the connection attempt and at establishment; the wall clock is subject
to adjustment, so the difference is not a monotonic-clock difference and
can even be negative. -/
theorem latency_wall_clock_difference (env : ProbeEnv) (p : PeerIn)
    (h : (isupT env p).1.up = true) :
    (isupT env p).1.latency = some (env.wall1 - env.wall0) := by
  unfold isupT at h ⊢
  split_ifs at h ⊢
  all_goals simp_all

def w5Env : ProbeEnv :=
  ⟨fun _ => some "192.0.2.30", 0, 800, ConnOutcome.success, false,
    10000, 11500, 0, 1500⟩

def w5Peer : PeerIn :=
  ⟨⟨"tls", "zeta.example.org", "443"⟩, "africa", "egypt.md"⟩

/-- C5 witness: the wall-clock latency difference at a concrete
successful probe. -/
theorem latency_wall_clock_difference_witness :
    (isupT w5Env w5Peer).1.latency = some (w5Env.wall1 - w5Env.wall0) :=
  latency_wall_clock_difference w5Env w5Peer (by decide)

/-- rowLe is transitive. -/
theorem rowLe_trans : ∀ a b c : Row, rowLe a b → rowLe b c → rowLe a c := by
  intro a b c hab hbc
  simp only [rowLe, decide_eq_true_eq] at hab hbc ⊢
  exact le_trans hab hbc

/-- rowLe is total. -/
theorem rowLe_total : ∀ a b : Row, rowLe a b || rowLe b a := by
  intro a b
  rcases le_total (rowKey a) (rowKey b) with h | h
  · simp [rowLe, h]
  · simp [rowLe, h]

/-- C7: the aggregator displays the alive results sorted by ascending
rounded latency with ties broken by input encounter order (a stable sort
on the rounded-latency key), every displayed alive row carrying a
latency, and displays the dead results in encounter order with no
reordering (their rows are a sublist of the full encounter-order row
list). -/
theorem report_ordering (results : List PeerResult)
    (hinv : ∀ r ∈ results, r.up = true → r.latency.isSome = true) :
    List.Perm (alive_rows results)
        ((results.filter (fun p => p.up)).map mkRow) ∧
      List.Pairwise (fun a b => rowKey a ≤ rowKey b) (alive_rows results) ∧
      (∀ k : ℚ, (alive_rows results).filter (fun r => decide (rowKey r = k))
          = ((results.filter (fun p => p.up)).map mkRow).filter
              (fun r => decide (rowKey r = k))) ∧
      (∀ r ∈ alive_rows results, r.2.1.isSome = true) ∧
      dead_rows results = (results.filter (fun p => !p.up)).map mkRow ∧
      List.Sublist (dead_rows results) (results.map mkRow) := by
  have htab : (prepare_table (results.filter (fun p => p.up))).1
      = (results.filter (fun p => p.up)).map mkRow := rfl
  refine ⟨?_, ?_, ?_, ?_, rfl, ?_⟩
  · simpa [alive_rows, prepare_table] using
      List.mergeSort_perm ((results.filter (fun p => p.up)).map mkRow) rowLe
  · have h := List.sorted_mergeSort rowLe_trans rowLe_total
      ((results.filter (fun p => p.up)).map mkRow)
    exact h.imp (by intro a b hab; simpa [rowLe] using hab)
  · intro k
    have hmem : ∀ r ∈ ((results.filter (fun p => p.up)).map mkRow).filter
        (fun r => decide (rowKey r = k)), rowKey r = k := by
      intro r hr
      simpa using List.of_mem_filter hr
    have hpw : (((results.filter (fun p => p.up)).map mkRow).filter
        (fun r => decide (rowKey r = k))).Pairwise
          (fun a b => rowLe a b) := by
      refine List.pairwise_of_forall_mem_list ?_
      intro a ha b hb
      simp [rowLe, hmem a ha, hmem b hb]
    have hsub := List.sublist_mergeSort rowLe_trans rowLe_total hpw
      (List.filter_sublist ((results.filter (fun p => p.up)).map mkRow))
    have h1 := hsub.filter (fun r => decide (rowKey r = k))
    have h2 : (((results.filter (fun p => p.up)).map mkRow).filter
          (fun r => decide (rowKey r = k))).filter
            (fun r => decide (rowKey r = k))
        = ((results.filter (fun p => p.up)).map mkRow).filter
            (fun r => decide (rowKey r = k)) := by
      refine List.filter_eq_self.mpr ?_
      intro a ha
      simp [hmem a ha]
    rw [h2] at h1
    have hperm := (List.mergeSort_perm
        ((results.filter (fun p => p.up)).map mkRow) rowLe).filter
      (fun r => decide (rowKey r = k))
    have heq := h1.eq_of_length hperm.length_eq.symm
    simpa [alive_rows, prepare_table] using heq.symm
  · intro r hr
    have hr2 : r ∈ (results.filter (fun p => p.up)).map mkRow := by
      simpa [alive_rows, prepare_table] using hr
    obtain ⟨p, hp, rfl⟩ := List.mem_map.mp hr2
    have hup : p.up = true := by simpa using (List.of_mem_filter hp)
    have hlat := hinv p (List.mem_of_mem_filter hp) hup
    simp only [mkRow]
    simpa using hlat
  · exact (List.filter_sublist results).map mkRow

def w7Results : List PeerResult :=
  [⟨⟨"tcp", "a.example.org", "80"⟩, "europe", "france.md", true, some 12000⟩,
   ⟨⟨"tcp", "b.example.org", "80"⟩, "europe", "spain.md", false, none⟩,
   ⟨⟨"tls", "c.example.org", "443"⟩, "asia", "japan.md", true, some 3000⟩,
   ⟨⟨"tcp", "d.example.org", "80"⟩, "asia", "india.md", true, some 12000⟩]

/-- C7 witness: the report ordering contract at a concrete result list
holding two alive rows tied at 12 ms, one alive row at 3 ms and one dead
row, with the stability equation instantiated at the tied key 12. -/
theorem report_ordering_witness :
    (∀ r ∈ w7Results, r.up = true → r.latency.isSome = true) ∧
      List.Perm (alive_rows w7Results)
        ((w7Results.filter (fun p => p.up)).map mkRow) ∧
      List.Pairwise (fun a b => rowKey a ≤ rowKey b) (alive_rows w7Results) ∧
      ((alive_rows w7Results).filter (fun r => decide (rowKey r = (12 : ℚ)))
        = ((w7Results.filter (fun p => p.up)).map mkRow).filter
            (fun r => decide (rowKey r = (12 : ℚ)))) ∧
      dead_rows w7Results = (w7Results.filter (fun p => !p.up)).map mkRow ∧
      List.Sublist (dead_rows w7Results) (w7Results.map mkRow) := by
  have h := report_ordering w7Results (by decide)
  exact ⟨by decide, h.1, h.2.1, h.2.2.1 12, h.2.2.2.2.1, h.2.2.2.2.2⟩
